import Mathlib

/-!
Verification of the kwin-mcp input/session core (`src/kwin_mcp/input.py`,
`src/kwin_mcp/session.py`) against its natural-language specification.

The Python code is shallowly embedded: pure helpers become Lean functions,
stateful methods become explicit state-passing functions, and methods whose
observable behaviour is a sequence of libei/D-Bus side effects are embedded
as functions returning the list of emitted primitive events (`Ev`).
Wall-clock sleeps are recorded as `Ev.sleep` events carrying the duration in
integer milliseconds (the Python code sleeps `k / 1000.0` seconds for an
integer `k`, so milliseconds are exact).  Floating-point pixel coordinates
are embedded as rationals; no claim below depends on the value of a
coordinate, only on the shape and order of the emitted events.
-/

/-! ### Primitive event model (Event Injector observable effects) -/

/-- One observable primitive effect emitted by `EISClient` / `InputBackend`:
an absolute pointer motion, a sleep of some milliseconds, a key or button
state change, or a scroll primitive.  Frame commits and `ei_dispatch`
flushes always directly follow the primitive in the source and are omitted
from the trace. -/
inductive Ev
  | moveAbs (x y : ℚ)
  | sleep (ms : Nat)
  | keyPress (code : Nat)
  | keyRelease (code : Nat)
  | btnPress (code : Nat)
  | btnRelease (code : Nat)
  | scrollDelta (dx dy : ℚ)
  | scrollDiscrete (dx dy : Int)
  | scrollStop
  deriving DecidableEq

/-- Event is a pointer-button press or release. -/
def isBtnEv : Ev → Bool
  | .btnPress _ => true
  | .btnRelease _ => true
  | _ => false

/-- Event is a keyboard key press or release. -/
def isKeyEv : Ev → Bool
  | .keyPress _ => true
  | .keyRelease _ => true
  | _ => false

/-- Event is an absolute pointer motion. -/
def isMoveAbsEv : Ev → Bool
  | .moveAbs _ _ => true
  | _ => false

/-- Event is a sleep. -/
def isSleepEv : Ev → Bool
  | .sleep _ => true
  | _ => false

/-- Event is a pointer-button release. -/
def isBtnReleaseEv : Ev → Bool
  | .btnRelease _ => true
  | _ => false

/-! ### Key maps (module-level tables of `input.py`) -/

/-- `MouseButton` enum from `input.py`. -/
inductive MouseButton
  | left
  | right
  | middle
  deriving DecidableEq

/-- `_BTN_CODES`: Linux input event codes for mouse buttons. -/
def BTN_CODES : MouseButton → Nat
  | .left => 0x110
  | .right => 0x111
  | .middle => 0x112

/-- `_EVDEV_KEY_MAP`: Linux evdev keycodes for special keys, keyed by
lower-case name.  Python strings are embedded as `List Char`. -/
def EVDEV_KEY_MAP : List (List Char × Nat) :=
  [("return".toList, 28), ("enter".toList, 28), ("tab".toList, 15),
   ("escape".toList, 1), ("backspace".toList, 14), ("delete".toList, 111),
   ("space".toList, 57), ("up".toList, 103), ("down".toList, 108),
   ("left".toList, 105), ("right".toList, 106), ("home".toList, 102),
   ("end".toList, 107), ("page_up".toList, 104), ("pageup".toList, 104),
   ("page_down".toList, 109), ("pagedown".toList, 109), ("insert".toList, 110),
   ("f1".toList, 59), ("f2".toList, 60), ("f3".toList, 61), ("f4".toList, 62),
   ("f5".toList, 63), ("f6".toList, 64), ("f7".toList, 65), ("f8".toList, 66),
   ("f9".toList, 67), ("f10".toList, 68), ("f11".toList, 87), ("f12".toList, 88),
   ("print".toList, 99), ("scroll_lock".toList, 70), ("pause".toList, 119),
   ("caps_lock".toList, 58), ("num_lock".toList, 69), ("menu".toList, 127)]

/-- Dictionary lookup in `_EVDEV_KEY_MAP` (keys are distinct, so
first-match lookup coincides with Python dict lookup). -/
def evdevKeyLookup (s : List Char) : Option Nat :=
  (EVDEV_KEY_MAP.find? (fun e => e.1 == s)).map (·.2)

/-- `_MODIFIER_KEYS`: modifier evdev keycodes. -/
def MODIFIER_KEYS : List (List Char × Nat) :=
  [("shift".toList, 42), ("ctrl".toList, 29), ("control".toList, 29),
   ("alt".toList, 56), ("super".toList, 125), ("meta".toList, 125)]

/-- Dictionary lookup in `_MODIFIER_KEYS`. -/
def modifierLookup (s : List Char) : Option Nat :=
  (MODIFIER_KEYS.find? (fun e => e.1 == s)).map (·.2)

/-- `_QWERTY_ROWS`: (normal chars, shifted chars, keycodes) per keyboard
row.  The apostrophe, double quote, and brace characters are written via
`Char.ofNat` (codepoints 39, 34, 123, 125). -/
def QWERTY_ROWS : List (List Char × List Char × List Nat) :=
  [("`1234567890-=".toList, "~!@#$%^&*()_+".toList,
    [41, 2, 3, 4, 5, 6, 7, 8, 9, 10, 11, 12, 13]),
   ("qwertyuiop[]\\".toList,
    "QWERTYUIOP".toList ++ [Char.ofNat 123, Char.ofNat 125, '|'],
    [16, 17, 18, 19, 20, 21, 22, 23, 24, 25, 26, 27, 43]),
   ("asdfghjkl;".toList ++ [Char.ofNat 39],
    "ASDFGHJKL:".toList ++ [Char.ofNat 34],
    [30, 31, 32, 33, 34, 35, 36, 37, 38, 39, 40]),
   ("zxcvbnm,./".toList, "ZXCVBNM<>?".toList,
    [44, 45, 46, 47, 48, 49, 50, 51, 52, 53])]

/-- `_CHAR_KEY_MAP`: character to (keycode, needs_shift), built from the
QWERTY rows exactly as the module-level loop in `input.py` does, then
extended with space, tab and newline. -/
def CHAR_KEY_MAP : List (Char × Nat × Bool) :=
  (QWERTY_ROWS.map (fun r =>
    (r.1.zip r.2.2).map (fun p => (p.1, p.2, false))
    ++ (r.2.1.zip r.2.2).map (fun p => (p.1, p.2, true)))).flatten
  ++ [(' ', 57, false), ('\t', 15, false), ('\n', 28, false)]

/-- Dictionary lookup in `_CHAR_KEY_MAP` (keys are distinct). -/
def charKeyLookup (c : Char) : Option (Nat × Bool) :=
  (CHAR_KEY_MAP.find? (fun e => e.1 == c)).map (·.2)

/-- Button state constants `_PRESSED` / `_RELEASED` are folded into the
distinct `Ev` constructors; scroll step size `_SCROLL_STEP_PIXELS`. -/
def SCROLL_STEP_PIXELS : ℚ := 15

/-! ### Key-combo parsing (`_key_name_to_evdev`, `_resolve_modifiers`,
`_parse_key_combo`) -/

/-- Python `str.split("+")` on the character list of a string. -/
def splitPlus : List Char → List (List Char)
  | [] => [[]]
  | c :: rest =>
    if c = '+' then [] :: splitPlus rest
    else
      match splitPlus rest with
      | [] => [[c]]
      | g :: gs => (c :: g) :: gs

/-- Python `str.strip()` (ASCII whitespace suffices for the key names in
scope). -/
def stripChars (s : List Char) : List Char :=
  ((s.dropWhile Char.isWhitespace).reverse.dropWhile Char.isWhitespace).reverse

/-- Python `str.lower()` on a character list. -/
def lowerChars (s : List Char) : List Char :=
  s.map Char.toLower

/-- `_key_name_to_evdev`: special-key table lookup on the lower-cased name,
else single-character lookup in the character map. -/
def key_name_to_evdev (name : List Char) : Option Nat :=
  match evdevKeyLookup (lowerChars name) with
  | some k => some k
  | none =>
    match name with
    | [c] => (charKeyLookup c).map (·.1)
    | _ => none

/-- `_resolve_modifiers`: map modifier names to keycodes, silently skipping
unknown names. -/
def resolve_modifiers (modifiers : List (List Char)) : List Nat :=
  modifiers.filterMap (fun m => modifierLookup (lowerChars m))

/-- One step of `_parse_key_combo`'s loop over the parts: a modifier name
appends its keycode; any other part overwrites the pending main key. -/
def parseComboStep (acc : List Nat × Option (List Char)) (part : List Char) :
    List Nat × Option (List Char) :=
  match modifierLookup (lowerChars (stripChars part)) with
  | some code => (acc.1 ++ [code], acc.2)
  | none => (acc.1, some (stripChars part))

/-- `_parse_key_combo`: split on `+`, collect modifier keycodes in order,
and resolve the last non-modifier part (if any) to its evdev keycode. -/
def parse_key_combo (key : List Char) : List Nat × Option Nat :=
  let r := (splitPlus key).foldl parseComboStep ([], none)
  (r.1, r.2.bind key_name_to_evdev)

/-! ### Keyboard gesture traces (`InputBackend.keyboard_key`,
`InputBackend.keyboard_key_down`) -/

/-- Trace of modifier presses: `keyboard_key(mod, PRESSED)` then a 10 ms
sleep, for each modifier in order. -/
def modPressTrace (mod_codes : List Nat) : List Ev :=
  (mod_codes.map (fun m => [Ev.keyPress m, Ev.sleep 10])).flatten

/-- Trace of modifier releases in reverse order: a 10 ms sleep then
`keyboard_key(mod, RELEASED)` for each modifier, reversed. -/
def modReleaseTrace (mod_codes : List Nat) : List Ev :=
  (mod_codes.reverse.map (fun m => [Ev.sleep 10, Ev.keyRelease m])).flatten

/-- `InputBackend.keyboard_key`: parse the combo; if the main keycode is
`None` return immediately (no events); otherwise press modifiers, press and
release the main key, release modifiers in reverse order. -/
def keyboard_key (key : String) : List Ev :=
  let r := parse_key_combo key.toList
  match r.2 with
  | none => []
  | some kc =>
    modPressTrace r.1
    ++ [Ev.keyPress kc, Ev.sleep 10, Ev.keyRelease kc]
    ++ modReleaseTrace r.1

/-- `InputBackend.keyboard_key_down`: press modifiers, then press (and
hold) the main key if one resolved. -/
def keyboard_key_down (key : String) : List Ev :=
  let r := parse_key_combo key.toList
  modPressTrace r.1
  ++ (match r.2 with
      | some kc => [Ev.keyPress kc, Ev.sleep 10]
      | none => [])

/-! ### C9 -/

/-- C9: a key-combo whose non-modifier part does not resolve to a keycode
(including modifier-only strings such as "ctrl") makes `keyboard_key` emit
no events at all — not even modifier presses — and return normally, while
`keyboard_key_down` on the bare modifier "ctrl" does press it. -/
theorem keyboard_key_unresolved_is_silent :
    (∀ key : String, (parse_key_combo key.toList).2 = none → keyboard_key key = [])
    ∧ keyboard_key "ctrl" = []
    ∧ keyboard_key_down "ctrl" = [Ev.keyPress 29, Ev.sleep 10] := by
  refine ⟨fun key h => ?_, by decide, by decide⟩
  simp only [keyboard_key, h]

/-- C9 witness: the combo "alt+foo" has no resolvable main key, and
`keyboard_key` on it emits nothing. -/
theorem keyboard_key_unresolved_is_silent_witness :
    (parse_key_combo "alt+foo".toList).2 = none ∧ keyboard_key "alt+foo" = [] :=
  ⟨by decide, keyboard_key_unresolved_is_silent.1 "alt+foo" (by decide)⟩

/-! ### Touch tracking (`EISClient.touch_down` / `touch_move` / `touch_up`) -/

/-- Touch-tracking state of `EISClient`: the auto-increment counter
`_next_touch_id` and the `_active_touches` dict mapping caller-visible
touch ids to native touch handles (embedded as an association list with
most-recent insertion first; reachable states have distinct keys). -/
structure TouchState where
  next_touch_id : Nat
  active_touches : List (Nat × Nat)
  deriving DecidableEq

/-- Fresh `EISClient` touch state (`_next_touch_id = 0`, no active
touches). -/
def initTouchState : TouchState := ⟨0, []⟩

/-- `self._active_touches.get(touch_id)`. -/
def lookupTouch (s : TouchState) (id : Nat) : Option Nat :=
  (s.active_touches.find? (fun p => p.1 == id)).map (·.2)

/-- Keys of the active-touch dict. -/
def touchKeys (s : TouchState) : List Nat :=
  s.active_touches.map Prod.fst

/-- `EISClient.touch_down`: allocate a native touch handle (supplied here
by the caller, standing for `ei_device_touch_new`), emit down/frame, then
return the current `_next_touch_id`, increment it and record the handle. -/
def touch_down (s : TouchState) (handle : Nat) : Nat × TouchState :=
  (s.next_touch_id,
   { next_touch_id := s.next_touch_id + 1,
     active_touches := (s.next_touch_id, handle) :: s.active_touches })

/-- `EISClient.touch_move`: fail with the unknown-touch error if the id is
not active, otherwise emit motion/frame (state unchanged). -/
def touch_move (s : TouchState) (id : Nat) : Except String TouchState :=
  match lookupTouch s id with
  | none => .error ("No active touch with ID " ++ toString id)
  | some _ => .ok s

/-- `EISClient.touch_up`: pop the id from the active dict; fail with the
unknown-touch error if it was not present, otherwise emit up/frame/unref. -/
def touch_up (s : TouchState) (id : Nat) : Except String TouchState :=
  match lookupTouch s id with
  | none => .error ("No active touch with ID " ++ toString id)
  | some _ => .ok { s with active_touches := s.active_touches.eraseP (fun p => p.1 == id) }

/-- A caller-issued touch operation within a session. -/
inductive TouchOp
  | down (handle : Nat)
  | move (id : Nat)
  | up (id : Nat)

/-- Apply one touch operation; a raised `ValueError` propagates to the
caller and leaves the client state unchanged, so the session continues
from the same state.  The second component lists the touch id returned by
a `touch_down`. -/
def applyTouchOp (s : TouchState) : TouchOp → TouchState × List Nat
  | .down h => ((touch_down s h).2, [(touch_down s h).1])
  | .move id =>
    match touch_move s id with
    | .ok s' => (s', [])
    | .error _ => (s, [])
  | .up id =>
    match touch_up s id with
    | .ok s' => (s', [])
    | .error _ => (s, [])

/-- Run a sequence of touch operations, collecting all returned touch ids
in call order. -/
def runTouchOps : TouchState → List TouchOp → TouchState × List Nat
  | s, [] => (s, [])
  | s, op :: ops =>
    ((runTouchOps (applyTouchOp s op).1 ops).1,
     (applyTouchOp s op).2 ++ (runTouchOps (applyTouchOp s op).1 ops).2)

/-- Session invariant of the touch registry: active ids are distinct and
below the counter. -/
def TouchInv (s : TouchState) : Prop :=
  (touchKeys s).Nodup ∧ ∀ k ∈ touchKeys s, k < s.next_touch_id

lemma applyTouchOp_counter_mono (s : TouchState) (op : TouchOp) :
    s.next_touch_id ≤ ((applyTouchOp s op).1).next_touch_id := by
  cases op with
  | down h => simp [applyTouchOp, touch_down]
  | move id =>
    simp only [applyTouchOp]
    cases htm : touch_move s id with
    | ok s' =>
      simp only [touch_move] at htm
      cases hl : lookupTouch s id <;> rw [hl] at htm
      · exact absurd htm (by simp)
      · simp only [Except.ok.injEq] at htm
        simp [← htm]
    | error e => simp
  | up id =>
    simp only [applyTouchOp]
    cases htu : touch_up s id with
    | ok s' =>
      simp only [touch_up] at htu
      cases hl : lookupTouch s id <;> rw [hl] at htu
      · exact absurd htu (by simp)
      · simp only [Except.ok.injEq] at htu
        simp [← htu]
    | error e => simp

lemma applyTouchOp_ids_bounds (s : TouchState) (op : TouchOp) :
    ∀ i ∈ (applyTouchOp s op).2,
      s.next_touch_id ≤ i ∧ i < ((applyTouchOp s op).1).next_touch_id := by
  cases op with
  | down h => simp [applyTouchOp, touch_down]
  | move id =>
    simp only [applyTouchOp]
    cases touch_move s id <;> simp
  | up id =>
    simp only [applyTouchOp]
    cases touch_up s id <;> simp

lemma runTouchOps_counter_mono (s : TouchState) (ops : List TouchOp) :
    s.next_touch_id ≤ ((runTouchOps s ops).1).next_touch_id := by
  induction ops generalizing s with
  | nil => simp [runTouchOps]
  | cons op ops ih =>
    simp only [runTouchOps]
    exact le_trans (applyTouchOp_counter_mono s op) (ih (applyTouchOp s op).1)

lemma runTouchOps_ids_bounds (s : TouchState) (ops : List TouchOp) :
    ∀ i ∈ (runTouchOps s ops).2, s.next_touch_id ≤ i := by
  induction ops generalizing s with
  | nil => simp [runTouchOps]
  | cons op ops ih =>
    intro i hi
    simp only [runTouchOps, List.mem_append] at hi
    rcases hi with hi | hi
    · exact (applyTouchOp_ids_bounds s op i hi).1
    · exact le_trans (applyTouchOp_counter_mono s op) (ih (applyTouchOp s op).1 i hi)

lemma runTouchOps_ids_pairwise (s : TouchState) (ops : List TouchOp) :
    ((runTouchOps s ops).2).Pairwise (· < ·) := by
  induction ops generalizing s with
  | nil => simp [runTouchOps]
  | cons op ops ih =>
    simp only [runTouchOps]
    rw [List.pairwise_append]
    refine ⟨?_, ih (applyTouchOp s op).1, ?_⟩
    · cases op with
      | down h => simp [applyTouchOp, touch_down]
      | move id =>
        simp only [applyTouchOp]
        cases touch_move s id <;> simp
      | up id =>
        simp only [applyTouchOp]
        cases touch_up s id <;> simp
    · intro a ha b hb
      exact lt_of_lt_of_le (applyTouchOp_ids_bounds s op a ha).2
        (runTouchOps_ids_bounds (applyTouchOp s op).1 ops b hb)

lemma eraseP_lookup_none (id : Nat) :
    ∀ l : List (Nat × Nat), (l.map Prod.fst).Nodup →
      (l.eraseP (fun p => p.1 == id)).find? (fun p => p.1 == id) = none := by
  intro l
  induction l with
  | nil => intro _; rfl
  | cons a l ih =>
    intro hnd
    simp only [List.map_cons, List.nodup_cons] at hnd
    by_cases ha : a.1 = id
    · rw [List.eraseP_cons_of_pos (by simp [ha])]
      rw [List.find?_eq_none]
      intro x hx
      simp only [beq_iff_eq]
      intro hxid
      exact hnd.1 (by subst ha; rw [← hxid]; exact List.mem_map_of_mem Prod.fst hx)
    · rw [List.eraseP_cons_of_neg (by simp [ha])]
      rw [List.find?_cons_of_neg _ (by simp [ha])]
      exact ih hnd.2

lemma touchInv_preserved (s : TouchState) (op : TouchOp) (h : TouchInv s) :
    TouchInv (applyTouchOp s op).1 := by
  obtain ⟨hnd, hlt⟩ := h
  cases op with
  | down hd =>
    refine ⟨?_, ?_⟩
    · simp only [applyTouchOp, touch_down, touchKeys, List.map_cons, List.nodup_cons]
      exact ⟨fun hmem => lt_irrefl _ (hlt _ hmem), hnd⟩
    · intro k hk
      simp only [applyTouchOp, touch_down, touchKeys, List.map_cons, List.mem_cons] at hk ⊢
      rcases hk with hk | hk
      · omega
      · exact lt_trans (hlt k hk) (by omega)
  | move id =>
    simp only [applyTouchOp]
    cases htm : touch_move s id with
    | ok s' =>
      simp only [touch_move] at htm
      cases hl : lookupTouch s id <;> rw [hl] at htm
      · exact absurd htm (by simp)
      · simp only [Except.ok.injEq] at htm
        exact htm ▸ ⟨hnd, hlt⟩
    | error e => exact ⟨hnd, hlt⟩
  | up id =>
    simp only [applyTouchOp]
    cases htu : touch_up s id with
    | ok s' =>
      simp only [touch_up] at htu
      cases hl : lookupTouch s id <;> rw [hl] at htu
      · exact absurd htu (by simp)
      · simp only [Except.ok.injEq] at htu
        subst htu
        constructor
        · exact List.Nodup.sublist ((List.eraseP_sublist _).map Prod.fst) hnd
        · intro k hk
          simp only [touchKeys] at hk
          obtain ⟨p, hp, hpk⟩ := List.mem_map.mp hk
          exact hpk ▸ hlt p.1 (List.mem_map_of_mem Prod.fst ((List.eraseP_sublist _).mem hp))
    | error e => exact ⟨hnd, hlt⟩

lemma touchInv_run (ops : List TouchOp) : TouchInv (runTouchOps initTouchState ops).1 := by
  suffices h : ∀ s, TouchInv s → TouchInv (runTouchOps s ops).1 by
    exact h initTouchState ⟨List.nodup_nil, by simp [touchKeys, initTouchState]⟩
  induction ops with
  | nil => intro s hs; simpa [runTouchOps] using hs
  | cons op ops ih =>
    intro s hs
    simp only [runTouchOps]
    exact ih _ (touchInv_preserved s op hs)

/-! ### C1 -/

/-- C1: within a session, touch ids returned by `touch_down` are strictly
increasing (hence unique); `touch_up` and `touch_move` on an id that is not
active fail with the unknown-touch error; `touch_up` on an active id
removes it, so a second `touch_up` on the same id fails.  States reachable
in a session satisfy the registry invariant used in the removal clause. -/
theorem touch_id_lifecycle :
    (∀ ops : List TouchOp, ((runTouchOps initTouchState ops).2).Pairwise (· < ·)
      ∧ ((runTouchOps initTouchState ops).2).Nodup
      ∧ TouchInv (runTouchOps initTouchState ops).1)
    ∧ (∀ (s : TouchState) (id : Nat), lookupTouch s id = none →
        touch_up s id = .error ("No active touch with ID " ++ toString id)
        ∧ touch_move s id = .error ("No active touch with ID " ++ toString id))
    ∧ (∀ (s : TouchState) (id h : Nat), TouchInv s → lookupTouch s id = some h →
        ∃ s', touch_up s id = .ok s' ∧ lookupTouch s' id = none
          ∧ touch_up s' id = .error ("No active touch with ID " ++ toString id)) := by
  refine ⟨fun ops => ⟨runTouchOps_ids_pairwise _ ops, ?_, touchInv_run ops⟩,
    fun s id hl => by simp [touch_up, touch_move, hl], fun s id h hinv hl => ?_⟩
  · exact (runTouchOps_ids_pairwise _ ops).imp Nat.ne_of_lt
  · refine ⟨{ s with active_touches := s.active_touches.eraseP (fun p => p.1 == id) }, ?_, ?_, ?_⟩
    · simp [touch_up, hl]
    · simp [lookupTouch, eraseP_lookup_none id s.active_touches hinv.1]
    · simp [touch_up, lookupTouch, eraseP_lookup_none id s.active_touches hinv.1]

/-- C1 witness: two touch-downs return ids 0 then 1; touch-up on the never
allocated id 7 fails; touch-up on the active id 0 succeeds and a second
touch-up on 0 fails. -/
theorem touch_id_lifecycle_witness :
    ((runTouchOps initTouchState [.down 50, .down 60]).2).Pairwise (· < ·)
    ∧ touch_up ⟨2, [(1, 60), (0, 50)]⟩ 7
        = .error ("No active touch with ID " ++ toString 7)
    ∧ ∃ s', touch_up ⟨2, [(1, 60), (0, 50)]⟩ 0 = .ok s'
        ∧ lookupTouch s' 0 = none
        ∧ touch_up s' 0 = .error ("No active touch with ID " ++ toString 0) :=
  ⟨(touch_id_lifecycle.1 [.down 50, .down 60]).1,
   (touch_id_lifecycle.2.1 ⟨2, [(1, 60), (0, 50)]⟩ 7 (by decide)).1,
   touch_id_lifecycle.2.2 ⟨2, [(1, 60), (0, 50)]⟩ 0 50
     ⟨by decide, by decide⟩ (by decide)⟩

/-! ### Session lifecycle (`session.py`) -/

/-- `SessionConfig` dataclass. -/
structure SessionConfig where
  socket_name : String := ""
  screen_width : Nat := 1920
  screen_height : Nat := 1080
  extra_env : List (String × String) := []
  deriving DecidableEq

/-- `SessionInfo` dataclass. -/
structure SessionInfo where
  dbus_address : String
  wayland_socket : String
  kwin_pid : Nat
  app_pid : Option Nat := none
  wrapper_pid : Option Nat := none
  deriving DecidableEq

/-- Mutable state of a `Session` object: the `Popen` handle (embedded by
its pid), the `SessionInfo`, and the remembered socket name. -/
structure SessionState where
  process : Option Nat
  info : Option SessionInfo
  socket_name : String
  deriving DecidableEq

/-- `Session.__init__`: no process, no info, empty socket name. -/
def initSessionState : SessionState := ⟨none, none, ""⟩

/-- `Session.is_running`: false with no process, else true exactly when
`poll()` (supplied by the environment) returns `None`. -/
def is_running (s : SessionState) (poll : Nat → Option Int) : Bool :=
  match s.process with
  | none => false
  | some pid => (poll pid).isNone

/-- One externally visible action of `Session.stop`. -/
inductive StopAction
  | killpgTerm (pgid : Nat)
  | killpgKill (pgid : Nat)
  | killProc (pid : Nat)
  | waitProc (pid : Nat)
  | unlinkSocket (path : String)
  deriving DecidableEq

/-- Environment behaviour during `Session.stop`: `os.getpgid` result
(`none` embeds `ProcessLookupError`/`PermissionError`, both suppressed) and
whether the first `wait(timeout=5)` raises `TimeoutExpired`. -/
structure StopWorld where
  pgidOf : Nat → Option Nat
  termWaitTimesOut : Bool

/-- `Session.stop`: early return if no process; otherwise SIGTERM to the
process group, bounded wait, on timeout escalate (SIGKILL the group, kill
the top-level process, bounded wait again), unlink the socket artifacts,
and clear the process and info fields.  Every fallible step in the source
is wrapped in a suppressing handler, so the embedding is total in the
world: `stop` never raises. -/
def Session.stop (s : SessionState) (w : StopWorld) : SessionState × List StopAction :=
  match s.process with
  | none => (s, [])
  | some pid =>
    let termActs : List StopAction :=
      match w.pgidOf pid with
      | some pgid => [StopAction.killpgTerm pgid]
      | none => []
    let escActs : List StopAction :=
      if w.termWaitTimesOut then
        (match w.pgidOf pid with
         | some pgid => [StopAction.killpgKill pgid]
         | none => [])
        ++ [StopAction.killProc pid, StopAction.waitProc pid]
      else []
    ({ process := none, info := none, socket_name := s.socket_name },
     termActs ++ [StopAction.waitProc pid] ++ escActs
       ++ [StopAction.unlinkSocket s.socket_name,
           StopAction.unlinkSocket (s.socket_name ++ ".lock")])

/-- Environment behaviour during `Session.start`: the pid of the spawned
wrapper, the first stdout line, whether the socket file appears within the
10 s timeout, the READY line, what the wrapper wrote to stderr, the
generated socket name used when the config leaves it empty, the `stop`
environment, and `poll`. -/
structure StartWorld where
  spawnedPid : Nat
  dbusLine : String
  socketAppears : Bool
  readyLine : String
  stderrContent : String
  generatedName : String
  stopWorld : StopWorld
  poll : Nat → Option Int

/-- First stdout line parsing in `Session.start`: accept the D-Bus address
only from a `DBUS_SESSION_BUS_ADDRESS=` line. -/
def parseDbusLine (line : String) : String :=
  if line.startsWith "DBUS_SESSION_BUS_ADDRESS=" then
    (line.splitOn "=")[1]? |>.getD ""
  else ""

/-- `Session.start`: refuse if already running; pick the socket name;
spawn the wrapper; read the D-Bus address line; wait for the socket (10 s
timeout) — on timeout `stop()` then read stderr *from `self._process`,
which `stop()` has just set to `None`* and raise; then expect the READY
line, raising after a `stop()` if it differs; on success build and store
the `SessionInfo`.  Errors carry the post-failure state (the Python
exception propagates with `self` left in that state). -/
def Session.start (s : SessionState) (cfg : SessionConfig) (w : StartWorld) :
    Except (String × SessionState) (SessionInfo × SessionState) :=
  if is_running s w.poll then
    .error ("Session is already running", s)
  else
    let sockName := if cfg.socket_name ≠ "" then cfg.socket_name else w.generatedName
    let s1 : SessionState :=
      { process := some w.spawnedPid, info := s.info, socket_name := sockName }
    let dbusAddress := parseDbusLine w.dbusLine
    if ¬ w.socketAppears then
      let s2 := (Session.stop s1 w.stopWorld).1
      let stderrTxt :=
        match s2.process with
        | some _ => w.stderrContent
        | none => ""
      .error ("KWin failed to start. stderr: " ++ stderrTxt, s2)
    else if w.readyLine ≠ "READY" then
      let s2 := (Session.stop s1 w.stopWorld).1
      .error ("Session setup failed. Expected READY, got: " ++ reprStr w.readyLine, s2)
    else
      let info : SessionInfo :=
        { dbus_address := dbusAddress, wayland_socket := sockName,
          kwin_pid := w.spawnedPid }
      .ok (info, { s1 with info := some info })

/-! ### C4 -/

/-- C4: `stop` is idempotent and total: on a fresh session it is a no-op
that performs no actions and raises nothing; after any `stop` the state
holds no process; if a process was held, `stop` also clears the
`SessionInfo`; and a second `stop` right after a first is a no-op. -/
theorem stop_idempotent :
    (∀ w, Session.stop initSessionState w = (initSessionState, []))
    ∧ (∀ s w, ((Session.stop s w).1).process = none)
    ∧ (∀ s w, s.process ≠ none → ((Session.stop s w).1).info = none)
    ∧ (∀ s w w', Session.stop ((Session.stop s w).1) w' = ((Session.stop s w).1, [])) := by
  refine ⟨fun w => rfl, fun s w => ?_, fun s w h => ?_, fun s w w' => ?_⟩
  · cases h : s.process <;> simp [Session.stop, h]
  · cases hp : s.process with
    | none => exact absurd hp h
    | some pid => simp [Session.stop, hp]
  · cases hp : s.process <;> simp [Session.stop, hp]

/-- C4 witness: stopping a running session clears the info, and a second
stop is a no-op. -/
theorem stop_idempotent_witness :
    ((Session.stop ⟨some 4, some ⟨"a", "w0", 4, none, none⟩, "w0"⟩
        ⟨fun _ => some 4, false⟩).1).info = none
    ∧ (∀ w', Session.stop ((Session.stop initSessionState ⟨fun _ => none, true⟩).1) w'
        = ((Session.stop initSessionState ⟨fun _ => none, true⟩).1, [])) :=
  ⟨stop_idempotent.2.2.1 ⟨some 4, some ⟨"a", "w0", 4, none, none⟩, "w0"⟩
      ⟨fun _ => some 4, false⟩ (by simp),
   fun w' => stop_idempotent.2.2.2 initSessionState ⟨fun _ => none, true⟩ w'⟩

/-! ### C10 -/

/-- C10: `is_running` is true exactly when a wrapper process has been
started (the process field is set) and `poll()` still returns `None`; it is
false on a fresh session, and it becomes false as soon as the process has
exited on its own (`poll` returns an exit code), without any `stop` call. -/
theorem is_running_characterisation :
    (∀ (s : SessionState) (poll : Nat → Option Int),
        is_running s poll = true ↔ ∃ pid, s.process = some pid ∧ poll pid = none)
    ∧ (∀ poll, is_running initSessionState poll = false)
    ∧ (∀ (s : SessionState) (poll : Nat → Option Int) (pid : Nat) (code : Int),
        s.process = some pid → poll pid = some code → is_running s poll = false) := by
  refine ⟨fun s poll => ?_, fun poll => rfl, fun s poll pid code hp hc => ?_⟩
  · cases hp : s.process with
    | none => simp [is_running, hp]
    | some pid => simp [is_running, hp, Option.isNone_iff_eq_none]
  · simp [is_running, hp, hc]

/-- C10 witness: a session whose process (pid 9) has exited with code 1 is
not running, with no `stop` call involved. -/
theorem is_running_characterisation_witness :
    is_running ⟨some 9, none, "w"⟩ (fun _ => some 1) = false :=
  is_running_characterisation.2.2 ⟨some 9, none, "w"⟩ (fun _ => some 1) 9 1 rfl rfl

/-! ### C3 -/

/-- C3 (code bug exhibit): with any configuration, if the socket never
appears within the timeout, `start` force-stops the partially started
session and raises `KWin failed to start. stderr: ...` — but the captured
diagnostic is always the empty string, even though the wrapper wrote
`kwin_wayland: fatal` to stderr, because `stop()` set `self._process` to
`None` before the `if self._process and self._process.stderr` read.  The
spec requires the message to include the captured stderr. -/
theorem start_timeout_drops_stderr :
    Session.start initSessionState { socket_name := "wl-test" }
      { spawnedPid := 7, dbusLine := "DBUS_SESSION_BUS_ADDRESS=unix:path=/tmp/b",
        socketAppears := false, readyLine := "", stderrContent := "kwin_wayland: fatal",
        generatedName := "g", stopWorld := ⟨fun _ => some 7, false⟩,
        poll := fun _ => none }
      = .error ("KWin failed to start. stderr: ", ⟨none, none, "wl-test"⟩) := by
  rfl

/-- C3 general form: whenever the socket wait times out (on a session that
was not already running), `start` fails with the fixed message carrying an
empty diagnostic — independent of what the wrapper wrote to stderr — and
the returned state is force-stopped (no process, no info). -/
theorem start_timeout_stderr_always_empty :
    ∀ (s : SessionState) (cfg : SessionConfig) (w : StartWorld),
      is_running s w.poll = false → w.socketAppears = false →
      Session.start s cfg w
        = .error ("KWin failed to start. stderr: ",
            ⟨none, none, if cfg.socket_name ≠ "" then cfg.socket_name else w.generatedName⟩) := by
  intro s cfg w hrun hsock
  simp only [Session.start, hrun, hsock, Bool.false_eq_true, if_false, not_false_iff,
    if_true, Session.stop]
  rfl

/-- C3 general-form witness: a concrete timed-out start with nonempty
wrapper stderr yields the empty-diagnostic message. -/
theorem start_timeout_stderr_always_empty_witness :
    Session.start ⟨none, none, ""⟩ { socket_name := "" }
      { spawnedPid := 3, dbusLine := "", socketAppears := false, readyLine := "READY",
        stderrContent := "boom", generatedName := "wayland-mcp-1-2",
        stopWorld := ⟨fun _ => none, true⟩, poll := fun _ => some 0 }
      = .error ("KWin failed to start. stderr: ", ⟨none, none, "wayland-mcp-1-2"⟩) :=
  start_timeout_stderr_always_empty ⟨none, none, ""⟩ { socket_name := "" }
    { spawnedPid := 3, dbusLine := "", socketAppears := false, readyLine := "READY",
      stderrContent := "boom", generatedName := "wayland-mcp-1-2",
      stopWorld := ⟨fun _ => none, true⟩, poll := fun _ => some 0 }
    rfl rfl

/-! ### EIS negotiation (`EISClient._setup` / `_negotiate_devices` /
`_register_device`) -/

/-- Capabilities of a device offered in a `DEVICE_ADDED` event, as probed
by `ei_device_has_capability` in `_register_device`. -/
structure DeviceDesc where
  id : Nat
  hasAbs : Bool
  hasKbd : Bool
  hasTouch : Bool
  deriving DecidableEq

/-- Events drained from the libei queue during the handshake. -/
inductive EIEvent
  | connect
  | disconnect
  | seatAdded
  | deviceAdded (d : DeviceDesc)
  | deviceResumed (id : Nat)
  deriving DecidableEq

/-- Event is a `DEVICE_RESUMED` notification. -/
def isDeviceResumedEv : EIEvent → Bool
  | .deviceResumed _ => true
  | _ => false

/-- Resources held by an `EISClient` during/after `_setup`: the libei
context, the D-Bus negotiation cookie, the three registry slots, the
multiset of native device references taken via `ei_device_ref`, and the
devices on which `ei_device_start_emulating` has been called. -/
structure EISConn where
  eiCtx : Bool
  cookie : Option Int
  pointer : Option Nat
  keyboard : Option Nat
  touchDevice : Option Nat
  deviceRefs : List Nat
  emulating : List Nat
  deriving DecidableEq

/-- `EISClient._register_device`: take a reference and fill each still-empty
registry slot whose capability the device has (absolute pointer preferred
for the pointer slot — the code only accepts absolute-capable devices
there). -/
def register_device (s : EISConn) (d : DeviceDesc) : EISConn :=
  let s1 :=
    if d.hasAbs && s.pointer.isNone then
      { s with pointer := some d.id, deviceRefs := s.deviceRefs ++ [d.id] }
    else s
  let s2 :=
    if d.hasKbd && s1.keyboard.isNone then
      { s1 with keyboard := some d.id, deviceRefs := s1.deviceRefs ++ [d.id] }
    else s1
  if d.hasTouch && s2.touchDevice.isNone then
    { s2 with touchDevice := some d.id, deviceRefs := s2.deviceRefs ++ [d.id] }
  else s2

/-- Handling of one drained event in `_negotiate_devices`: a disconnect
raises immediately (the raised error carries the state as it is left —
nothing is released); seat-added binds capabilities (no registry change);
device-added registers; device-resumed is `pass`; other types are
ignored. -/
def processEvent (s : EISConn) : EIEvent → Option String × EISConn
  | .disconnect => (some "EIS server disconnected during handshake", s)
  | .seatAdded => (none, s)
  | .deviceAdded d => (none, register_device s d)
  | .deviceResumed _ => (none, s)
  | .connect => (none, s)

/-- Drain one batch of pending events (the inner `while True` loop of
`_negotiate_devices`), stopping at the first raised error. -/
def processBatch (s : EISConn) : List EIEvent → Option String × EISConn
  | [] => (none, s)
  | e :: es =>
    match processEvent s e with
    | (some err, s') => (some err, s')
    | (none, s') => processBatch s' es

/-- `ei_device_start_emulating` on all registered devices, skipping
aliases, exactly as the code does after the loop: pointer, then keyboard if
distinct from the pointer, then the touch device if distinct from both. -/
def startEmulatingAll (s : EISConn) : EISConn :=
  let l1 : List Nat := match s.pointer with | some p => [p] | none => []
  let l2 : List Nat :=
    if s.keyboard = s.pointer then []
    else match s.keyboard with | some k => [k] | none => []
  let l3 : List Nat :=
    match s.touchDevice with
    | none => []
    | some t => if s.touchDevice = s.pointer ∨ s.touchDevice = s.keyboard then [] else [t]
  { s with emulating := s.emulating ++ l1 ++ l2 ++ l3 }

/-- `EISClient._negotiate_devices`: each outer poll-iteration drains one
batch; after a batch the loop breaks early once both a pointer and a
keyboard are registered; when the time budget runs out (batch list
exhausted), missing devices raise; on success every registered device is
put into emulation. -/
def negotiate_devices (s : EISConn) : List (List EIEvent) → Option String × EISConn
  | [] =>
    if s.pointer.isNone then (some "No pointer device available from EIS", s)
    else if s.keyboard.isNone then (some "No keyboard device available from EIS", s)
    else (none, startEmulatingAll s)
  | b :: bs =>
    match processBatch s b with
    | (some err, s') => (some err, s')
    | (none, s') =>
      if s'.pointer.isSome && s'.keyboard.isSome then (none, startEmulatingAll s')
      else negotiate_devices s' bs

/-- `EISClient._setup` from the point where the D-Bus `connectToEIS` call
has yielded a cookie and the libei sender context has been created and
attached to the received descriptor: run the handshake.  A handshake error
propagates out of `__init__` with every resource still held (the method has
no handler and `close()` is not called on this path). -/
def eis_setup (cookie : Int) (batches : List (List EIEvent)) : Option String × EISConn :=
  negotiate_devices
    { eiCtx := true, cookie := some cookie, pointer := none, keyboard := none,
      touchDevice := none, deviceRefs := [], emulating := [] }
    batches

/-! ### C2 -/

/-- C2 (code bug exhibit): a `disconnect` arriving after an
absolute-pointer device was registered but before a keyboard appeared makes
negotiation fail with the handshake error — yet the partially-created
channel is *not* released: the native reference to device 7, the
negotiation cookie 42, and the libei context all remain held, because
`_negotiate_devices` raises with no cleanup and `_setup`/`__init__` never
call `close()` on this path.  The spec requires no leaked references. -/
theorem negotiate_disconnect_leaks :
    eis_setup 42 [[.seatAdded, .deviceAdded ⟨7, true, false, false⟩, .disconnect]]
      = (some "EIS server disconnected during handshake",
         { eiCtx := true, cookie := some 42, pointer := some 7, keyboard := none,
           touchDevice := none, deviceRefs := [7], emulating := [] }) := by
  decide

/-! ### C5 -/

/-- C5 counterexample: a handshake whose event stream contains *no*
`device-resumed` event at all still succeeds, registers device 3 as both
pointer and keyboard, and starts emulation on it — the device is usable
without ever having signaled resumed, contradicting the claim that devices
that never signaled resumed are not usable. -/
theorem negotiate_succeeds_without_resumed :
    eis_setup 1 [[.seatAdded, .deviceAdded ⟨3, true, true, false⟩]]
      = (none,
         { eiCtx := true, cookie := some 1, pointer := some 3, keyboard := some 3,
           touchDevice := none, deviceRefs := [3, 3], emulating := [3] }) := by
  decide

lemma processBatch_filter_resumed (b : List EIEvent) :
    ∀ s : EISConn, processBatch s (b.filter (fun e => !isDeviceResumedEv e)) = processBatch s b := by
  induction b with
  | nil => intro s; rfl
  | cons e es ih =>
    intro s
    cases e with
    | deviceResumed id =>
      simp only [List.filter_cons, isDeviceResumedEv, Bool.not_true, Bool.false_eq_true,
        if_false, processBatch, processEvent]
      exact ih s
    | connect =>
      simp only [List.filter_cons, isDeviceResumedEv, Bool.not_false, if_true, processBatch,
        processEvent]
      exact ih s
    | disconnect =>
      simp [List.filter_cons, isDeviceResumedEv, processBatch, processEvent]
    | seatAdded =>
      simp only [List.filter_cons, isDeviceResumedEv, Bool.not_false, if_true, processBatch,
        processEvent]
      exact ih s
    | deviceAdded d =>
      simp only [List.filter_cons, isDeviceResumedEv, Bool.not_false, if_true, processBatch,
        processEvent]
      exact ih (register_device s d)

/-- C5 amended: the handshake treats `device-resumed` as a no-op, so a
registered device is usable (registered, emulating) as soon as negotiation
completes whether or not a `device-resumed` event for it was ever
processed: the whole negotiation outcome is unchanged when every
`device-resumed` event is deleted from the stream. -/
theorem negotiate_ignores_device_resumed :
    ∀ (s : EISConn) (batches : List (List EIEvent)),
      negotiate_devices s (batches.map (fun b => b.filter (fun e => !isDeviceResumedEv e)))
        = negotiate_devices s batches := by
  intro s batches
  induction batches generalizing s with
  | nil => rfl
  | cons b bs ih =>
    simp only [List.map_cons, negotiate_devices, processBatch_filter_resumed b s]
    cases processBatch s b with
    | mk err s' =>
      cases err with
      | some e => rfl
      | none =>
        simp only
        by_cases hps : s'.pointer.isSome && s'.keyboard.isSome
        · rw [if_pos hps, if_pos hps]
        · rw [if_neg hps, if_neg hps]
          exact ih s'

/-! ### Gesture composer traces (`InputBackend.mouse_click`,
`mouse_drag`, `mouse_scroll`) -/

/-- One iteration of the click loop: an inter-click 50 ms sleep from the
second click on, then press, then a sleep of `max(10, hold_ms)` ms on the
last click when `hold_ms > 0` and 10 ms otherwise, then release. -/
def clickBlock (code cc hold_ms i : Nat) : List Ev :=
  (if 0 < i then [Ev.sleep 50] else [])
  ++ [Ev.btnPress code,
      Ev.sleep (if 0 < hold_ms ∧ i = cc - 1 then max 10 hold_ms else 10),
      Ev.btnRelease code]

/-- `InputBackend.mouse_click`: move, 20 ms settle, press modifiers, the
`click_count` press/release blocks, release modifiers in reverse order.
`double=True` with `click_count=1` upgrades to a double click. -/
def mouse_click (x y : Int) (btn : MouseButton) (double : Bool) (click_count : Nat)
    (modifiers : List (List Char)) (hold_ms : Nat) : List Ev :=
  let cc := if double ∧ click_count = 1 then 2 else click_count
  let code := BTN_CODES btn
  let mod_codes := resolve_modifiers modifiers
  [Ev.moveAbs x y, Ev.sleep 20]
  ++ modPressTrace mod_codes
  ++ ((List.range cc).map (clickBlock code cc hold_ms)).flatten
  ++ modReleaseTrace mod_codes

/-- The expected button sub-trace of an N-click: N press/release pairs in
order. -/
def pressReleasePairs (code : Nat) (n : Nat) : List Ev :=
  ((List.range n).map (fun _ => [Ev.btnPress code, Ev.btnRelease code])).flatten

/-- Milliseconds slept directly before the final button release of a
trace: walk the trace backwards to the last button release and read the
sleep immediately preceding it. -/
def delayBeforeFinalRelease (t : List Ev) : Option Nat :=
  match t.reverse.dropWhile (fun e => !isBtnReleaseEv e) with
  | _ :: Ev.sleep d :: _ => some d
  | _ => none

/-- One drag path segment `(fx, fy, tx, ty, dwell_ms)` built by
`mouse_drag`. -/
structure DragSeg where
  fx : Int
  fy : Int
  tx : Int
  ty : Int
  dwell_ms : Nat
  deriving DecidableEq

/-- Segment construction of `mouse_drag`: start → each waypoint (with its
dwell) → destination (dwell 0). -/
def buildSegments : Int → Int → List (Int × Int × Nat) → Int → Int → List DragSeg
  | px, py, [], tx, ty => [⟨px, py, tx, ty, 0⟩]
  | px, py, w :: ws, tx, ty => ⟨px, py, w.1, w.2.1, w.2.2⟩ :: buildSegments w.1 w.2.1 ws tx ty

/-- Steps of one segment: `max(10, int(hypot(dx, dy) / 10))`.  For integer
endpoints `int(sqrt(n)/10)` equals `Nat.sqrt n / 10`. -/
def segSteps (g : DragSeg) : Nat :=
  max 10 (Nat.sqrt ((g.tx - g.fx) ^ 2 + (g.ty - g.fy) ^ 2).toNat / 10)

/-- Interpolated motion of one segment: `segSteps` samples at fractions
`i/steps` (i = 1..steps), each followed by a 10 ms sleep, then the
waypoint dwell if positive. -/
def segTrace (g : DragSeg) : List Ev :=
  ((List.range (segSteps g)).map (fun (i : Nat) =>
    [Ev.moveAbs ((g.fx : ℚ) + ((g.tx : ℚ) - (g.fx : ℚ)) * (((i : ℚ) + 1) / (segSteps g : ℚ)))
                ((g.fy : ℚ) + ((g.ty : ℚ) - (g.fy : ℚ)) * (((i : ℚ) + 1) / (segSteps g : ℚ))),
     Ev.sleep 10])).flatten
  ++ (if 0 < g.dwell_ms then [Ev.sleep g.dwell_ms] else [])

/-- `InputBackend.mouse_drag`: move to the origin, 50 ms settle, press
modifiers, press the button, 20 ms settle, emit every segment's
interpolated motion, 20 ms settle, release the button, release modifiers
in reverse order. -/
def mouse_drag (from_x from_y to_x to_y : Int) (btn : MouseButton)
    (modifiers : List (List Char)) (waypoints : List (Int × Int × Nat)) : List Ev :=
  let code := BTN_CODES btn
  let mod_codes := resolve_modifiers modifiers
  [Ev.moveAbs from_x from_y, Ev.sleep 50]
  ++ modPressTrace mod_codes
  ++ [Ev.btnPress code, Ev.sleep 20]
  ++ ((buildSegments from_x from_y waypoints to_x to_y).map segTrace).flatten
  ++ [Ev.sleep 20, Ev.btnRelease code]
  ++ modReleaseTrace mod_codes

/-- Body of the multi-increment discrete scroll: for each `i` in
`range(steps)`, the floor-divided share plus one extra for the first
`delta mod steps` increments (Python `//` and `%` are floor division and
floor modulus, embedded as `Int.fdiv` / `Int.fmod`); a zero axis total
yields zero shares. -/
def fracShare (d : Int) (steps i : Nat) : Int :=
  if d ≠ 0 then d.fdiv steps + (if (i : Int) < d.fmod steps then 1 else 0) else 0

/-- One iteration of the multi-increment discrete scroll loop. -/
def discreteScrollStep (dx dy : Int) (steps i : Nat) : List Ev :=
  (if fracShare dx steps i ≠ 0 ∨ fracShare dy steps i ≠ 0 then
    [Ev.scrollDiscrete (fracShare dx steps i) (fracShare dy steps i)]
   else [])
  ++ [Ev.sleep 10]

def discreteScrollBody (dx dy : Int) (steps : Nat) : List Ev :=
  ((List.range steps).map (discreteScrollStep dx dy steps)).flatten

/-- `InputBackend.mouse_scroll`: move, 20 ms settle, then either the
discrete branch (single wheel delta, or split across `steps` increments)
or the smooth branch (pixel delta `delta * 15.0`, whole or split evenly),
always ending with an explicit scroll-stop. -/
def mouse_scroll (x y : Int) (delta : Int) (horizontal : Bool) (discrete : Bool)
    (steps : Nat) : List Ev :=
  [Ev.moveAbs x y, Ev.sleep 20]
  ++ (if discrete then
        (let dx : Int := if horizontal then delta else 0
         let dy : Int := if horizontal then 0 else delta
         if 1 < steps then discreteScrollBody dx dy steps
         else [Ev.scrollDiscrete dx dy])
        ++ [Ev.scrollStop]
      else
        (let total_dx : ℚ := if horizontal then (delta : ℚ) * SCROLL_STEP_PIXELS else 0
         let total_dy : ℚ := if horizontal then 0 else (delta : ℚ) * SCROLL_STEP_PIXELS
         if 1 < steps then
           ((List.range steps).map (fun _ =>
             [Ev.scrollDelta (total_dx / (steps : ℚ)) (total_dy / (steps : ℚ)),
              Ev.sleep 10])).flatten
         else [Ev.scrollDelta total_dx total_dy])
        ++ [Ev.scrollStop])

/-- Horizontal contribution of one event to the discrete scroll total. -/
def scrollContribX : Ev → Int
  | .scrollDiscrete dx _ => dx
  | _ => 0

/-- Vertical contribution of one event to the discrete scroll total. -/
def scrollContribY : Ev → Int
  | .scrollDiscrete _ dy => dy
  | _ => 0

/-- Total of the discrete horizontal scroll increments in a trace. -/
def scrollSumX (t : List Ev) : Int := (t.map scrollContribX).sum

/-- Total of the discrete vertical scroll increments in a trace. -/
def scrollSumY (t : List Ev) : Int := (t.map scrollContribY).sum


lemma sum_map_const_add (c : Int) (g : Nat → Int) :
    ∀ l : List Nat, (l.map (fun i => c + g i)).sum = (l.length : Int) * c + (l.map g).sum := by
  intro l
  induction l with
  | nil => simp
  | cons a l ih =>
    simp only [List.map_cons, List.sum_cons, ih, List.length_cons]
    push_cast
    ring

lemma sum_indicator_min (m : Int) (h0 : 0 ≤ m) :
    ∀ s : Nat, ((List.range s).map (fun (i : Nat) => if (i : Int) < m then (1 : Int) else 0)).sum
      = min m s := by
  intro s
  induction s with
  | zero =>
    simp only [List.range_zero, List.map_nil, List.sum_nil, Nat.cast_zero]
    omega
  | succ n ih =>
    rw [List.range_succ]
    simp only [List.map_append, List.sum_append, ih, List.map_cons, List.map_nil,
      List.sum_cons, List.sum_nil]
    by_cases h : (n : Int) < m
    · rw [if_pos h]
      push_cast
      omega
    · rw [if_neg h]
      push_cast
      omega

lemma fracShare_sum (d : Int) (steps : Nat) (hs : 0 < steps) :
    ((List.range steps).map (fracShare d steps)).sum = d := by
  by_cases hd : d = 0
  · subst hd
    have : ∀ i ∈ List.range steps, fracShare 0 steps i = 0 := by
      intro i _
      simp [fracShare]
    rw [List.map_congr_left this]
    simp
  · have hsz : (0 : Int) < (steps : Int) := by exact_mod_cast hs
    have hshare : ∀ i ∈ List.range steps,
        fracShare d steps i
          = d.fdiv steps + (if (i : Int) < d.fmod steps then (1 : Int) else 0) := by
      intro i _
      simp [fracShare, hd]
    rw [List.map_congr_left hshare]
    rw [sum_map_const_add (d.fdiv steps)
      (fun (i : Nat) => if (i : Int) < d.fmod steps then (1 : Int) else 0) (List.range steps)]
    rw [sum_indicator_min (d.fmod steps) (Int.fmod_nonneg' d hsz)]
    rw [List.length_range, min_eq_left (le_of_lt (Int.fmod_lt_of_pos d hsz))]
    have h := Int.fmod_add_fdiv d (steps : Int)
    linarith [h]

lemma sumEv_append (f : Ev → Int) (a b : List Ev) :
    ((a ++ b).map f).sum = (a.map f).sum + (b.map f).sum := by
  rw [List.map_append, List.sum_append]

lemma sumEv_flatten (f : Ev → Int) :
    ∀ L : List (List Ev), (L.flatten.map f).sum = (L.map (fun b => (b.map f).sum)).sum := by
  intro L
  induction L with
  | nil => simp
  | cons a L ih =>
    simp only [List.flatten_cons, sumEv_append, ih, List.map_cons, List.sum_cons]

lemma discreteScrollStep_sumY (dx dy : Int) (steps i : Nat) :
    ((discreteScrollStep dx dy steps i).map scrollContribY).sum = fracShare dy steps i := by
  unfold discreteScrollStep
  by_cases hg : fracShare dx steps i ≠ 0 ∨ fracShare dy steps i ≠ 0
  · rw [if_pos hg]
    simp [scrollContribY]
  · rw [if_neg hg]
    push_neg at hg
    simp [scrollContribY, hg.2]

lemma discreteScrollStep_sumX (dx dy : Int) (steps i : Nat) :
    ((discreteScrollStep dx dy steps i).map scrollContribX).sum = fracShare dx steps i := by
  unfold discreteScrollStep
  by_cases hg : fracShare dx steps i ≠ 0 ∨ fracShare dy steps i ≠ 0
  · rw [if_pos hg]
    simp [scrollContribX]
  · rw [if_neg hg]
    push_neg at hg
    simp [scrollContribX, hg.1]

lemma discreteScrollBody_sumY (dx dy : Int) (steps : Nat) (hs : 0 < steps) :
    scrollSumY (discreteScrollBody dx dy steps) = dy := by
  unfold scrollSumY discreteScrollBody
  rw [sumEv_flatten, List.map_map]
  exact (congrArg List.sum
    (List.map_congr_left (fun i _ => discreteScrollStep_sumY dx dy steps i))).trans
    (fracShare_sum dy steps hs)

lemma discreteScrollBody_sumX (dx dy : Int) (steps : Nat) (hs : 0 < steps) :
    scrollSumX (discreteScrollBody dx dy steps) = dx := by
  unfold scrollSumX discreteScrollBody
  rw [sumEv_flatten, List.map_map]
  exact (congrArg List.sum
    (List.map_congr_left (fun i _ => discreteScrollStep_sumX dx dy steps i))).trans
    (fracShare_sum dx steps hs)

lemma mouse_scroll_discrete_eq (x y delta : Int) (horizontal : Bool) (steps : Nat) :
    mouse_scroll x y delta horizontal true steps
      = [Ev.moveAbs x y, Ev.sleep 20]
        ++ ((if 1 < steps then
              discreteScrollBody (if horizontal then delta else 0)
                (if horizontal then 0 else delta) steps
             else [Ev.scrollDiscrete (if horizontal then delta else 0)
                    (if horizontal then 0 else delta)])
            ++ [Ev.scrollStop]) := rfl

lemma scrollSumY_append (a b : List Ev) :
    scrollSumY (a ++ b) = scrollSumY a + scrollSumY b :=
  sumEv_append scrollContribY a b

lemma scrollSumX_append (a b : List Ev) :
    scrollSumX (a ++ b) = scrollSumX a + scrollSumX b :=
  sumEv_append scrollContribX a b

/-! ### C8 -/

/-- C8: for every integer delta and `steps ≥ 1`, the discrete scroll trace
has increments whose total on the requested axis is exactly `delta` (even
for negative deltas and deltas not divisible by `steps`), zero total on the
other axis, and its last emitted event is the scroll-stop signal. -/
theorem mouse_scroll_discrete_total :
    ∀ (x y delta : Int) (horizontal : Bool) (steps : Nat), 1 ≤ steps →
      scrollSumY (mouse_scroll x y delta horizontal true steps)
          = (if horizontal then 0 else delta)
      ∧ scrollSumX (mouse_scroll x y delta horizontal true steps)
          = (if horizontal then delta else 0)
      ∧ (mouse_scroll x y delta horizontal true steps).getLast? = some Ev.scrollStop := by
  intro x y delta horizontal steps hs
  rw [mouse_scroll_discrete_eq]
  refine ⟨?_, ?_, ?_⟩
  · rw [scrollSumY_append, scrollSumY_append]
    by_cases h1 : 1 < steps
    · rw [if_pos h1, discreteScrollBody_sumY _ _ steps (by omega)]
      simp [scrollSumY, scrollContribY]
    · rw [if_neg h1]
      cases horizontal <;> simp [scrollSumY, scrollContribY]
  · rw [scrollSumX_append, scrollSumX_append]
    by_cases h1 : 1 < steps
    · rw [if_pos h1, discreteScrollBody_sumX _ _ steps (by omega)]
      simp [scrollSumX, scrollContribX]
    · rw [if_neg h1]
      cases horizontal <;> simp [scrollSumX, scrollContribX]
  · rw [← List.append_assoc]
    exact List.getLast?_concat _

/-- C8 witness: scrolling delta −3 vertically in 2 increments gives
increments totalling −3 on the vertical axis, 0 horizontally, and ends
with the scroll-stop. -/
theorem mouse_scroll_discrete_total_witness :
    scrollSumY (mouse_scroll 0 0 (-3) false true 2) = (if false then 0 else (-3 : Int))
    ∧ scrollSumX (mouse_scroll 0 0 (-3) false true 2) = (if false then (-3 : Int) else 0)
    ∧ (mouse_scroll 0 0 (-3) false true 2).getLast? = some Ev.scrollStop :=
  mouse_scroll_discrete_total 0 0 (-3) false 2 (by decide)

lemma buildSegments_length :
    ∀ (wps : List (Int × Int × Nat)) (px py tx ty : Int),
      (buildSegments px py wps tx ty).length = wps.length + 1 := by
  intro wps
  induction wps with
  | nil => intro px py tx ty; rfl
  | cons w ws ih =>
    intro px py tx ty
    simp only [buildSegments, List.length_cons, ih w.1 w.2.1 tx ty]

lemma sum_map_one {α : Type} : ∀ l : List α, (l.map (fun _ => (1 : Nat))).sum = l.length := by
  intro l
  induction l with
  | nil => rfl
  | cons a l ih => simp [ih, Nat.add_comm]

lemma segTrace_move_count (g : DragSeg) :
    (segTrace g).countP isMoveAbsEv = segSteps g := by
  unfold segTrace
  rw [List.countP_append, List.countP_flatten, List.map_map]
  have h1 : ∀ i ∈ List.range (segSteps g),
      (List.countP isMoveAbsEv ∘ fun (i : Nat) =>
        [Ev.moveAbs ((g.fx : ℚ) + ((g.tx : ℚ) - (g.fx : ℚ)) * (((i : ℚ) + 1) / (segSteps g : ℚ)))
                    ((g.fy : ℚ) + ((g.ty : ℚ) - (g.fy : ℚ)) * (((i : ℚ) + 1) / (segSteps g : ℚ))),
         Ev.sleep 10]) i = 1 := by
    intro i _
    simp [List.countP_cons, isMoveAbsEv]
  rw [List.map_congr_left h1, sum_map_one, List.length_range]
  have h2 : List.countP isMoveAbsEv (if 0 < g.dwell_ms then [Ev.sleep g.dwell_ms] else []) = 0 := by
    by_cases hd : 0 < g.dwell_ms <;> simp [hd, isMoveAbsEv]
  rw [h2]
  simp

lemma segTrace_members (g : DragSeg) : ∀ e ∈ segTrace g, isMoveAbsEv e = true ∨ isSleepEv e = true := by
  intro e he
  unfold segTrace at he
  rw [List.mem_append] at he
  rcases he with he | he
  · rw [List.mem_flatten] at he
    obtain ⟨b, hb, heb⟩ := he
    rw [List.mem_map] at hb
    obtain ⟨i, _, hib⟩ := hb
    rw [← hib] at heb
    simp only [List.mem_cons, List.not_mem_nil, or_false] at heb
    rcases heb with rfl | rfl
    · left; rfl
    · right; rfl
  · by_cases hd : 0 < g.dwell_ms
    · rw [if_pos hd] at he
      simp only [List.mem_singleton] at he
      subst he
      right; rfl
    · rw [if_neg hd] at he
      exact absurd he (List.not_mem_nil e)

/-! ### C7 -/

/-- C7: a drag with K waypoints builds exactly K+1 path segments; every
segment's interpolated motion has `max(10, ⌊segment length / 10⌋)` samples,
hence at least 10; and the full trace is the move/settle/modifier prefix,
the button press, then all interpolated motion (motion and sleeps only),
then the button release and the modifier releases — so the press precedes
every interpolated sample and the release follows the last one. -/
theorem mouse_drag_segments :
    ∀ (from_x from_y to_x to_y : Int) (btn : MouseButton) (mods : List (List Char))
      (waypoints : List (Int × Int × Nat)),
      (buildSegments from_x from_y waypoints to_x to_y).length = waypoints.length + 1
      ∧ (∀ g ∈ buildSegments from_x from_y waypoints to_x to_y,
          10 ≤ segSteps g
          ∧ (segTrace g).countP isMoveAbsEv
              = max 10 (Nat.sqrt ((g.tx - g.fx) ^ 2 + (g.ty - g.fy) ^ 2).toNat / 10))
      ∧ ∃ mid,
          mouse_drag from_x from_y to_x to_y btn mods waypoints
            = ([Ev.moveAbs from_x from_y, Ev.sleep 50]
                ++ modPressTrace (resolve_modifiers mods)
                ++ [Ev.btnPress (BTN_CODES btn), Ev.sleep 20])
              ++ mid
              ++ ([Ev.sleep 20, Ev.btnRelease (BTN_CODES btn)]
                  ++ modReleaseTrace (resolve_modifiers mods))
          ∧ mid = ((buildSegments from_x from_y waypoints to_x to_y).map segTrace).flatten
          ∧ (∀ e ∈ mid, isMoveAbsEv e = true ∨ isSleepEv e = true) := by
  intro from_x from_y to_x to_y btn mods waypoints
  refine ⟨buildSegments_length waypoints from_x from_y to_x to_y,
    fun g _ => ⟨le_max_left _ _, segTrace_move_count g⟩,
    ((buildSegments from_x from_y waypoints to_x to_y).map segTrace).flatten, ?_, rfl, ?_⟩
  · simp [mouse_drag]
  · intro e he
    rw [List.mem_flatten] at he
    obtain ⟨b, hb, heb⟩ := he
    rw [List.mem_map] at hb
    obtain ⟨g, _, hgb⟩ := hb
    exact segTrace_members g e (hgb ▸ heb)

/-- C7 witness: the waypoint-free drag from (0,0) to (30,40) has exactly
one segment whose sample count is `max(10, ⌊50/10⌋)` and at least 10. -/
theorem mouse_drag_segments_witness :
    (buildSegments 0 0 [] 30 40).length = 0 + 1
    ∧ (10 ≤ segSteps ⟨0, 0, 30, 40, 0⟩
       ∧ (segTrace ⟨0, 0, 30, 40, 0⟩).countP isMoveAbsEv = segSteps ⟨0, 0, 30, 40, 0⟩) :=
  ⟨(mouse_drag_segments 0 0 30 40 .left [] []).1,
   (mouse_drag_segments 0 0 30 40 .left [] []).2.1 ⟨0, 0, 30, 40, 0⟩ (List.Mem.head _)⟩

lemma modPressTrace_filter_btn : ∀ l : List Nat, (modPressTrace l).filter isBtnEv = [] := by
  intro l
  induction l with
  | nil => rfl
  | cons a l ih =>
    unfold modPressTrace at ih ⊢
    simp only [List.map_cons, List.flatten_cons, List.filter_append, ih, List.append_nil]
    simp [isBtnEv]

lemma modPressTrace_filter_key :
    ∀ l : List Nat, (modPressTrace l).filter isKeyEv = l.map Ev.keyPress := by
  intro l
  induction l with
  | nil => rfl
  | cons a l ih =>
    unfold modPressTrace at ih ⊢
    simp only [List.map_cons, List.flatten_cons, List.filter_append, ih]
    simp [isKeyEv]

lemma relTrace_filter_btn :
    ∀ m : List Nat, (((m.map (fun mo => [Ev.sleep 10, Ev.keyRelease mo])).flatten).filter isBtnEv) = [] := by
  intro m
  induction m with
  | nil => rfl
  | cons a m ih =>
    simp only [List.map_cons, List.flatten_cons, List.filter_append, ih, List.append_nil]
    simp [isBtnEv]

lemma relTrace_filter_key :
    ∀ m : List Nat, (((m.map (fun mo => [Ev.sleep 10, Ev.keyRelease mo])).flatten).filter isKeyEv)
      = m.map Ev.keyRelease := by
  intro m
  induction m with
  | nil => rfl
  | cons a m ih =>
    simp only [List.map_cons, List.flatten_cons, List.filter_append, ih]
    simp [isKeyEv]

lemma modReleaseTrace_filter_btn (l : List Nat) : (modReleaseTrace l).filter isBtnEv = [] :=
  relTrace_filter_btn l.reverse

lemma modReleaseTrace_filter_key (l : List Nat) :
    (modReleaseTrace l).filter isKeyEv = l.reverse.map Ev.keyRelease :=
  relTrace_filter_key l.reverse

lemma modReleaseTrace_no_btnRelease (l : List Nat) :
    ∀ e ∈ modReleaseTrace l, isBtnReleaseEv e = false := by
  intro e he
  unfold modReleaseTrace at he
  rw [List.mem_flatten] at he
  obtain ⟨b, hb, heb⟩ := he
  rw [List.mem_map] at hb
  obtain ⟨mo, _, hmb⟩ := hb
  rw [← hmb] at heb
  simp only [List.mem_cons, List.not_mem_nil, or_false] at heb
  rcases heb with rfl | rfl <;> rfl

lemma clickBlock_filter_btn (code cc hold_ms i : Nat) :
    (clickBlock code cc hold_ms i).filter isBtnEv = [Ev.btnPress code, Ev.btnRelease code] := by
  by_cases hi : 0 < i <;> simp [clickBlock, hi, isBtnEv]

lemma clickBlock_filter_key (code cc hold_ms i : Nat) :
    (clickBlock code cc hold_ms i).filter isKeyEv = [] := by
  by_cases hi : 0 < i <;> simp [clickBlock, hi, isKeyEv]

lemma clicks_filter_btn (code cc hold_ms : Nat) :
    (((List.range cc).map (clickBlock code cc hold_ms)).flatten).filter isBtnEv
      = pressReleasePairs code cc := by
  rw [List.filter_flatten, List.map_map]
  exact congrArg List.flatten
    (List.map_congr_left (fun i _ => clickBlock_filter_btn code cc hold_ms i))

lemma clicks_filter_key (code cc hold_ms : Nat) :
    (((List.range cc).map (clickBlock code cc hold_ms)).flatten).filter isKeyEv = [] := by
  rw [List.filter_flatten, List.map_map]
  rw [show List.map (List.filter isKeyEv ∘ clickBlock code cc hold_ms) (List.range cc)
      = List.map (fun _ => ([] : List Ev)) (List.range cc) from
    List.map_congr_left (fun i _ => clickBlock_filter_key code cc hold_ms i)]
  simp

lemma dropWhile_append_of_all {α : Type} (p : α → Bool) :
    ∀ l1 l2 : List α, (∀ x ∈ l1, p x = true) → (l1 ++ l2).dropWhile p = l2.dropWhile p := by
  intro l1
  induction l1 with
  | nil => intro l2 _; rfl
  | cons a l ih =>
    intro l2 h
    rw [List.cons_append, List.dropWhile_cons, h a (List.mem_cons_self a l)]
    simp only
    exact ih l2 (fun x hx => h x (List.mem_cons_of_mem a hx))

lemma delayBeforeFinalRelease_split (A B1 C : List Ev) (code D : Nat)
    (hC : ∀ e ∈ C, isBtnReleaseEv e = false) :
    delayBeforeFinalRelease
      (A ++ (B1 ++ [Ev.btnPress code, Ev.sleep D, Ev.btnRelease code]) ++ C) = some D := by
  unfold delayBeforeFinalRelease
  have h1 : (A ++ (B1 ++ [Ev.btnPress code, Ev.sleep D, Ev.btnRelease code]) ++ C).reverse
      = C.reverse ++ (Ev.btnRelease code :: Ev.sleep D :: Ev.btnPress code
          :: (B1.reverse ++ A.reverse)) := by
    simp [List.reverse_append, List.append_assoc]
  rw [h1]
  rw [dropWhile_append_of_all _ C.reverse _ (fun e he => by
    rw [List.mem_reverse] at he
    rw [hC e he]
    rfl)]
  rw [List.dropWhile_cons]
  simp [isBtnReleaseEv]

/-! ### C6 -/

/-- C6 counterexample: with `hold_ms = 5` (which is `> 0`), the emitted
click trace is *identical* to the `hold_ms = 0` trace — the delay before
the final release is `max(10, 5) = 10` ms, exactly the default short-press
delay and not strictly larger, refuting the claim for `0 < hold_ms ≤ 10`. -/
theorem mouse_click_hold5_equals_default :
    mouse_click 0 0 MouseButton.left false 1 [] 5
        = mouse_click 0 0 MouseButton.left false 1 [] 0
    ∧ delayBeforeFinalRelease (mouse_click 0 0 MouseButton.left false 1 [] 5) = some 10 :=
  ⟨rfl, rfl⟩

/-- C6 (amended): for `click_count ≥ 1` (plain click, `double = False`) the
trace is a move, a non-zero settle sleep, the modifier presses, exactly
`click_count` press/release pairs in order (no key events among them), and
the modifier releases in reverse order; the delay before the final release
is `max(10, hold_ms)` ms when `hold_ms > 0` and 10 ms otherwise, which is
strictly larger than the 10 ms default exactly when `hold_ms > 10`. -/
theorem mouse_click_shape :
    ∀ (x y : Int) (btn : MouseButton) (cc : Nat) (mods : List (List Char)) (hold_ms : Nat),
      1 ≤ cc →
      (mouse_click x y btn false cc mods hold_ms).filter isBtnEv
          = pressReleasePairs (BTN_CODES btn) cc
      ∧ (∃ d, (mouse_click x y btn false cc mods hold_ms).take 2
            = [Ev.moveAbs x y, Ev.sleep d] ∧ 0 < d)
      ∧ (∃ mid,
          mouse_click x y btn false cc mods hold_ms
            = [Ev.moveAbs x y, Ev.sleep 20]
              ++ modPressTrace (resolve_modifiers mods)
              ++ mid
              ++ modReleaseTrace (resolve_modifiers mods)
          ∧ mid.filter isKeyEv = []
          ∧ mid.filter isBtnEv = pressReleasePairs (BTN_CODES btn) cc
          ∧ (modPressTrace (resolve_modifiers mods)).filter isKeyEv
              = (resolve_modifiers mods).map Ev.keyPress
          ∧ (modReleaseTrace (resolve_modifiers mods)).filter isKeyEv
              = (resolve_modifiers mods).reverse.map Ev.keyRelease)
      ∧ delayBeforeFinalRelease (mouse_click x y btn false cc mods hold_ms)
          = some (if 0 < hold_ms then max 10 hold_ms else 10)
      ∧ (10 < hold_ms → 10 < max 10 hold_ms) := by
  intro x y btn cc mods hold_ms hcc
  have hcc' : ¬ (false = true ∧ cc = 1) := by simp
  refine ⟨?_, ⟨20, ?_, by omega⟩, ?_, ?_, fun h => lt_of_lt_of_le h (le_max_right 10 hold_ms)⟩
  · simp only [mouse_click, hcc', if_false, List.filter_append]
    rw [modPressTrace_filter_btn, clicks_filter_btn, modReleaseTrace_filter_btn]
    simp [isBtnEv]
  · simp [mouse_click, hcc']
  · refine ⟨((List.range cc).map (clickBlock (BTN_CODES btn) cc hold_ms)).flatten,
      ?_, clicks_filter_key _ cc hold_ms, clicks_filter_btn _ cc hold_ms,
      modPressTrace_filter_key _, modReleaseTrace_filter_key _⟩
    simp [mouse_click, hcc', List.append_assoc]
  · obtain ⟨k, rfl⟩ : ∃ k, cc = k + 1 := ⟨cc - 1, by omega⟩
    have hsplit : mouse_click x y btn false (k + 1) mods hold_ms
        = ([Ev.moveAbs x y, Ev.sleep 20] ++ modPressTrace (resolve_modifiers mods))
          ++ ((((List.range k).map (clickBlock (BTN_CODES btn) (k + 1) hold_ms)).flatten
               ++ (if 0 < k then [Ev.sleep 50] else []))
              ++ [Ev.btnPress (BTN_CODES btn),
                  Ev.sleep (if 0 < hold_ms then max 10 hold_ms else 10),
                  Ev.btnRelease (BTN_CODES btn)])
          ++ modReleaseTrace (resolve_modifiers mods) := by
      simp only [mouse_click, hcc', if_false, List.range_succ, List.map_append,
        List.flatten_append, List.map_cons, List.map_nil, List.flatten_cons,
        List.flatten_nil, List.append_nil, clickBlock, Nat.add_sub_cancel]
      simp [List.append_assoc]
    rw [hsplit]
    exact delayBeforeFinalRelease_split _ _ _ _ _
      (modReleaseTrace_no_btnRelease (resolve_modifiers mods))

/-- C6 witness: a plain double right-click with ctrl held and
`hold_ms = 30` has two press/release pairs and a 30 ms final-release
delay. -/
theorem mouse_click_shape_witness :
    (mouse_click 1 2 MouseButton.right false 2 [['c', 't', 'r', 'l']] 30).filter isBtnEv
        = pressReleasePairs (BTN_CODES MouseButton.right) 2
    ∧ delayBeforeFinalRelease (mouse_click 1 2 MouseButton.right false 2 [['c', 't', 'r', 'l']] 30)
        = some (if 0 < 30 then max 10 30 else 10) :=
  ⟨(mouse_click_shape 1 2 MouseButton.right 2 [['c', 't', 'r', 'l']] 30 (by decide)).1,
   (mouse_click_shape 1 2 MouseButton.right 2 [['c', 't', 'r', 'l']] 30 (by decide)).2.2.2.1⟩
